import Mathlib

/-!
Shallow embedding of the `keymacro` crate (`src/lib.rs`).

The crate provides a RAII guard `Defer<F: FnOnce()>` holding
`deferred: Option<F>`, whose `Drop` implementation runs
`if let Some(deferred) = self.deferred.take() { deferred(); }`,
plus three macros: `keep!` (binds a value so it lives until scope end),
`deferred!` (sugar for `Defer::new`), `defer!` (expands to
`keep!(deferred!(...))`), and `text!` (joins literals with newlines via
`concat!`).

Actions are modelled as state transformers `sigma -> Except eps sigma`:
a normal return is `Except.ok`, a panic is `Except.error`.  A scope is a
list of guards in creation order together with the mutable state; scope
exit drops the guards in reverse creation order (Rust drop order),
propagating the first panic.  The `keep!` macro for general values is
modelled by a scope of pending destructors.
-/

namespace Keymacro

/-- Mirror of `struct Defer<F: FnOnce()> { deferred: Option<F> }`.
The closure is modelled as a fallible state transformer. -/
structure Defer (σ ε : Type) where
  deferred : Option (σ → Except ε σ)

/-- Mirror of `Defer::new`: wrap the action, invoking nothing. -/
def Defer.new (f : σ → Except ε σ) : Defer σ ε :=
  { deferred := Option.some f }

/-- Mirror of `Drop for Defer`:
`if let Some(deferred) = self.deferred.take() { deferred(); }`.
`take` leaves the slot empty; the taken action, if any, is invoked on the
current state.  Returns the guard after the drop and the outcome. -/
def Defer.drop (d : Defer σ ε) (s : σ) : Defer σ ε × Except ε σ :=
  match d.deferred with
  | Option.some f => ({ deferred := Option.none }, f s)
  | Option.none => (d, Except.ok s)

/-- A guard is armed when its action is still present. -/
def Defer.armed (d : Defer σ ε) : Bool :=
  d.deferred.isSome

/-- Drop a scope's guards, given in creation order, in reverse creation
order (Rust drops locals last-created first), threading the state and
propagating a panic raised by an action. -/
def runScope : List (Defer σ ε) → σ → Except ε σ
  | [], s => Except.ok s
  | g :: gs, s =>
    match runScope gs s with
    | Except.ok t => (Defer.drop g t).2
    | Except.error e => Except.error e

/-- A scope in flight: the current state and the guards it owns, in
creation order. -/
structure ScopeState (σ ε : Type) where
  state : σ
  guards : List (Defer σ ε)

/-- Executing `let _g = Defer::new(f);` inside a scope: the guard is
constructed (no invocation, the state is untouched) and owned by the
scope until its end. -/
def createGuard (sc : ScopeState σ ε) (f : σ → Except ε σ) : ScopeState σ ε :=
  { sc with guards := sc.guards ++ [Defer.new f] }

/-- Leaving the scope through any path: every owned guard is dropped, in
reverse creation order. -/
def exitScope (sc : ScopeState σ ε) : Except ε σ :=
  runScope sc.guards sc.state

/-- Mirror of the `deferred!` macro: it expands to `Defer::new(|| ...)`. -/
def deferredMacro (f : σ → Except ε σ) : Defer σ ε :=
  Defer.new f

/-- `keep!` applied to a guard value: `let _keeped = g;` makes the scope
own `g` until its end. -/
def keepGuard (sc : ScopeState σ ε) (g : Defer σ ε) : ScopeState σ ε :=
  { sc with guards := sc.guards ++ [g] }

/-- Mirror of the `defer!` macro: it expands to
`keep!(deferred!(tokens))`. -/
def deferMacro (sc : ScopeState σ ε) (f : σ → Except ε σ) : ScopeState σ ε :=
  keepGuard sc (deferredMacro f)

/-- Modelled from the spec: construct the guard via the plain
constructor `Defer::new` and then hold the resulting guard in the
current scope until scope end. -/
def constructThenHold (sc : ScopeState σ ε) (f : σ → Except ε σ) : ScopeState σ ε :=
  { sc with guards := sc.guards ++ [Defer.new f] }

/-- A scope for plain kept values: the state plus the destructors of the
values the scope owns, in creation order. -/
structure KeepScope (σ : Type) where
  state : σ
  pending : List (σ → σ)

/-- Evaluating an expression yields the updated state and the destructor
of the resulting temporary.  A bare expression statement drops its
temporary at the end of the statement. -/
def evalDiscard (sc : KeepScope σ) (eval : σ → σ × (σ → σ)) : KeepScope σ :=
  let r := eval sc.state
  { sc with state := r.2 r.1 }

/-- Mirror of `keep!($value)`, which expands to `let _keeped = $value;`:
the value is evaluated and its destructor postponed to scope end. -/
def keepMacro (sc : KeepScope σ) (eval : σ → σ × (σ → σ)) : KeepScope σ :=
  { state := (eval sc.state).1, pending := sc.pending ++ [(eval sc.state).2] }

/-- Leaving a keep-scope runs the pending destructors, last created
first. -/
def keepExit (sc : KeepScope σ) : σ :=
  List.foldl (fun s d => d s) sc.state sc.pending.reverse

/-- Cloning a reference-counted handle: the strong count goes up by one,
and the clone's destructor brings it back down by one. -/
def rcClone (n : Nat) : Nat × (Nat → Nat) :=
  (n + 1, fun m => m - 1)

/-- Mirror of the `text!` macro on string literals:
`()` gives `""`, and `($first $($more)*)` gives
`concat!($first $(, '\n', $more)*)`. -/
def text : List String → String
  | [] => ""
  | first :: more => List.foldl (fun acc m => acc ++ "\n" ++ m) first more

/-- Modelled from the spec: the literals joined with exactly one newline
character between each adjacent pair, empty for zero literals. -/
def joinNl : List String → String
  | [] => ""
  | [a] => a
  | a :: b :: rest => a ++ "\n" ++ joinNl (b :: rest)

/-- The kinds of literal token the `text!` matcher `$x:literal` accepts,
beyond string literals, with `concat!`-style rendering. -/
inductive Lit where
  | str (s : String)
  | chr (c : Char)
  | int (n : Int)
  | bool (b : Bool)
  | float (ip fp : Nat)

/-- The string form `concat!` gives each literal. -/
def Lit.render : Lit → String
  | Lit.str s => s
  | Lit.chr c => String.singleton c
  | Lit.int n => toString n
  | Lit.bool b => if b then "true" else "false"
  | Lit.float ip fp => toString ip ++ "." ++ toString fp

/-- Mirror of the `text!` macro on arbitrary literal tokens. -/
def textLit : List Lit → String
  | [] => ""
  | first :: more =>
    List.foldl (fun acc m => acc ++ "\n" ++ Lit.render m) (Lit.render first) more

/-- The newline-prefixed tail of a join: what the `$(, '\n', $more)*`
repetition of `text!` contributes after the first literal. -/
def tailJoin : List String → String
  | [] => ""
  | m :: ms => "\n" ++ m ++ tailJoin ms

lemma foldl_join (more : List String) (acc : String) :
    List.foldl (fun a m => a ++ "\n" ++ m) acc more = acc ++ tailJoin more := by
  induction more generalizing acc with
  | nil => simp [tailJoin, String.append_empty]
  | cons m ms ih =>
    rw [List.foldl_cons, ih]
    simp [tailJoin, String.append_assoc]

lemma joinNl_cons (a : String) (rest : List String) :
    joinNl (a :: rest) = a ++ tailJoin rest := by
  induction rest generalizing a with
  | nil => simp [joinNl, tailJoin, String.append_empty]
  | cons b ms ih =>
    rw [joinNl, ih, tailJoin]
    simp [String.append_assoc]

lemma text_eq_joinNl (ls : List String) : text ls = joinNl ls := by
  cases ls with
  | nil => rfl
  | cons first more => rw [text, foldl_join, joinNl_cons]

lemma textLit_eq_text (ls : List Lit) : textLit ls = text (List.map Lit.render ls) := by
  cases ls with
  | nil => rfl
  | cons first more =>
    rw [textLit, List.map_cons, text, List.foldl_map]

/-- C1: for a constructed guard, the first teardown takes the action out
of the slot and invokes it exactly once, and a second teardown attempt
on the resulting guard is a no-op: no second invocation, state
untouched. -/
theorem teardown_invokes_exactly_once (σ ε : Type) (f : σ → Except ε σ) (s t : σ) :
    Defer.drop (Defer.new f) s = ({ deferred := Option.none }, f s)
    ∧ Defer.drop (Defer.drop (Defer.new f) s).1 t
      = ((Defer.drop (Defer.new f) s).1, Except.ok t) :=
  ⟨rfl, rfl⟩

/-- C2: constructing a guard never invokes the action (the state is
untouched by construction); in the flag scenario the flag is still false
immediately before scope exit and true immediately after. -/
theorem create_never_invokes (σ ε : Type) (sc : ScopeState σ ε) (f : σ → Except ε σ) :
    (createGuard sc f).state = sc.state
    ∧ (createGuard ({ state := false, guards := [] } : ScopeState Bool Unit)
        (fun _ => Except.ok true)).state = false
    ∧ exitScope (createGuard ({ state := false, guards := [] } : ScopeState Bool Unit)
        (fun _ => Except.ok true)) = Except.ok true :=
  ⟨rfl, rfl, rfl⟩

/-- C3: the text-join returns the literals joined with exactly one
newline between each adjacent pair, including the four concrete
examples. -/
theorem text_join_newlines :
    (∀ ls : List String, text ls = joinNl ls)
    ∧ text [] = ""
    ∧ text ["a"] = "a"
    ∧ text ["a", "b"] = "a\nb"
    ∧ text ["a", "b", "c"] = "a\nb\nc" :=
  ⟨text_eq_joinNl, rfl, rfl, rfl, rfl⟩

/-- C4: two guards created in sequence fire in reverse creation order at
scope exit (the later guard's action runs first); with marker-appending
actions the resulting order is [second, first]. -/
theorem guards_fire_reverse_order (σ ε : Type) (f g : σ → Except ε σ) (s : σ) :
    exitScope { state := s, guards := [Defer.new f, Defer.new g] }
      = (match g s with
         | Except.ok t => f t
         | Except.error e => Except.error e)
    ∧ exitScope
        { state := ([] : List Nat),
          guards := [Defer.new (fun l => (Except.ok (l ++ [1]) : Except Unit (List Nat))),
                     Defer.new (fun l => Except.ok (l ++ [2]))] }
      = Except.ok [2, 1] :=
  ⟨rfl, rfl⟩

/-- C5: if the action fails during its single invocation at teardown,
the failure propagates unchanged out of the scope exit: it is not
retried, caught, suppressed or converted. -/
theorem failing_action_propagates {σ ε : Type} (f : σ → Except ε σ) (s : σ) (e : ε)
    (h : f s = Except.error e) :
    exitScope { state := s, guards := [Defer.new f] } = Except.error e :=
  h

/-- Witness for C5: a scope holding only a guard whose action raises 7
exits with error 7. -/
theorem failing_action_propagates_witness :
    exitScope
        { state := (0 : Nat),
          guards := [Defer.new (fun _ => (Except.error 7 : Except Nat Nat))] }
      = Except.error 7 :=
  failing_action_propagates (fun _ => Except.error 7) 0 7 rfl

/-- C6: keep-value evaluates the expression and postpones the
destruction of its result to scope end: in general the kept value's
destructor has not yet run after the statement; for a shared counter at
1, cloning without keeping leaves the count at 1 immediately after the
statement, cloning and keeping leaves it at 2 until scope end (and back
to 1 after). -/
theorem keep_extends_lifetime :
    (∀ (σ : Type) (sc : KeepScope σ) (eval : σ → σ × (σ → σ)),
      (keepMacro sc eval).state = (eval sc.state).1)
    ∧ (evalDiscard { state := 1, pending := [] } rcClone).state = 1
    ∧ (keepMacro { state := 1, pending := [] } rcClone).state = 2
    ∧ keepExit (keepMacro { state := 1, pending := [] } rcClone) = 1 :=
  ⟨fun _ _ _ => rfl, rfl, rfl, rfl⟩

/-- C7: the keyword-like `defer!` entry point (which expands to
`keep!(deferred!(...))`) is equal, as an operation on the scope, to
constructing the guard with the plain constructor and holding it until
scope end; in particular every scope-exit behaviour coincides. -/
theorem defer_macro_equiv (σ ε : Type) (sc : ScopeState σ ε) (f : σ → Except ε σ) :
    deferMacro sc f = constructThenHold sc f
    ∧ exitScope (deferMacro sc f) = exitScope (constructThenHold sc f) :=
  ⟨rfl, rfl⟩

/-- C8: a guard is in exactly one of the two states armed / fired; a new
guard is armed; teardown always leaves the guard fired (the one-way
transition); tearing down a fired guard re-arms nothing and invokes
nothing. -/
theorem guard_two_states (σ ε : Type) (f : σ → Except ε σ) (d : Defer σ ε) (s : σ) :
    (Defer.armed d = true ∨ Defer.armed d = false)
    ∧ Defer.armed (Defer.new f) = true
    ∧ (Defer.drop d s).1.deferred = Option.none
    ∧ Defer.drop ({ deferred := Option.none } : Defer σ ε) s
      = ({ deferred := Option.none }, Except.ok s) := by
  refine ⟨Bool.eq_false_or_eq_true (Defer.armed d), rfl, ?_, rfl⟩
  cases d with
  | mk o => cases o <;> rfl

/-- C9: during teardown the slot is emptied before the action is
invoked: even when the action fails, the guard returned by the drop is
already fired, and a subsequent teardown attempt performs no second
invocation. -/
theorem slot_emptied_before_invocation {σ ε : Type} (f : σ → Except ε σ) (s t : σ) (e : ε)
    (h : f s = Except.error e) :
    (Defer.drop (Defer.new f) s).1.deferred = Option.none
    ∧ (Defer.drop (Defer.new f) s).2 = Except.error e
    ∧ Defer.drop (Defer.drop (Defer.new f) s).1 t
      = ((Defer.drop (Defer.new f) s).1, Except.ok t) :=
  ⟨rfl, h, rfl⟩

/-- Witness for C9: a guard whose action raises 3 is fired after its
first drop, the drop reports error 3, and a second drop is a no-op. -/
theorem slot_emptied_before_invocation_witness :
    (Defer.drop (Defer.new (fun _ => (Except.error 3 : Except Nat Nat))) 0).1.deferred
      = Option.none
    ∧ (Defer.drop (Defer.new (fun _ => (Except.error 3 : Except Nat Nat))) 0).2
      = Except.error 3
    ∧ Defer.drop (Defer.drop (Defer.new (fun _ => (Except.error 3 : Except Nat Nat))) 0).1 5
      = ((Defer.drop (Defer.new (fun _ => (Except.error 3 : Except Nat Nat))) 0).1,
         Except.ok 5) :=
  slot_emptied_before_invocation (fun _ => Except.error 3) 0 5 3 rfl

/-- C10: the text-join accepts any literal tokens and yields their
string forms joined by single newlines; the literals 1 and 2 yield
"1\n2". -/
theorem text_any_literals (ls : List Lit) :
    textLit ls = joinNl (List.map Lit.render ls)
    ∧ textLit [Lit.int 1, Lit.int 2] = "1\n2" := by
  refine ⟨?_, ?_⟩
  · rw [textLit_eq_text, text_eq_joinNl]
  · rfl

end Keymacro
